import Mathlib

/-!
Verification of the `yadict` Yandex-dictionary client (`src/lib.rs`).

The client is a thin wrapper around one HTTP API: it builds request URLs,
performs a blocking GET, parses the body as JSON (via `rustc_serialize`),
classifies service-level error codes, and projects the JSON into a small
typed model (`Word`, `Def`).

The network, the body read and the JSON parse are external effects; they are
modelled by an explicit `wire : String → Transport` argument mapping the full
request URL to the outcome of the send / read-body / parse pipeline.  All
other code is translated function-for-function from `src/lib.rs`.
-/

namespace Yadict

/-- JSON values, after `rustc_serialize::json::Json`.  The `f64` payload (a
floating-point number) is omitted: no operation of this client inspects it,
every accessor used here rejects the `F64` constructor outright. -/
inductive Json where
  | i64 (n : Int)
  | u64 (n : Nat)
  | f64
  | string (s : String)
  | boolean (b : Bool)
  | array (xs : List Json)
  | object (o : List (String × Json))

/-- A JSON object (`rustc_serialize::json::Object`, a map from `String` to
`Json`); modelled as an association list. -/
abbrev JObject := List (String × Json)

/-- Map lookup on a JSON object (`BTreeMap::get`). -/
def jsonGet (o : JObject) (k : String) : Option Json :=
  List.lookup k o

/-- After `Json::as_object`: `Some` exactly on the `Object` constructor. -/
def Json.as_object : Json → Option JObject
  | .object o => some o
  | _ => none

/-- After `Json::as_array`: `Some` exactly on the `Array` constructor. -/
def Json.as_array : Json → Option (List Json)
  | .array xs => some xs
  | _ => none

/-- After `Json::as_string`: `Some` exactly on the `String` constructor. -/
def Json.as_string : Json → Option String
  | .string s => some s
  | _ => none

/-- After `Json::as_u64`: the `U64` payload, or the `I64` payload cast to
`u64` (Rust's `as` cast wraps modulo `2 ^ 64`); `None` on every other
constructor. -/
def Json.as_u64 : Json → Option Nat
  | .i64 n => some ((n % (2 ^ 64 : Int)).toNat)
  | .u64 n => some n
  | _ => none

/-- The error cause of `std::env::var` (`env::VarError`); the `NotUnicode`
payload is omitted. -/
inductive VarError where
  | notPresent
  | notUnicode
deriving DecidableEq

/-- The `ApiError` enum of `src/lib.rs`. -/
inductive ApiError where
  | invalidEnvironmentVar (e : VarError)
deriving DecidableEq

/-- The `RequestError` enum of `src/lib.rs`.  The `HyperError`, `IOError`,
`EncodingError` and `ParseError` variants carry opaque causes from external
libraries in the source; the payloads are omitted here, the variants kept. -/
inductive RequestError where
  | keyInvalid
  | keyBlocked
  | dailyLimitExceeded
  | textTooLong
  | langNotSupported
  | invalidDataFormat
  | unknownError (code : Nat)
  | hyperError
  | ioError
  | encodingError
  | parseError
deriving DecidableEq

/-- The `From<u64> for RequestError` impl: classification of the service's
error codes found inside JSON response bodies (not HTTP status codes). -/
def RequestError.fromCode (e : Nat) : RequestError :=
  match e with
  | 401 => .keyInvalid
  | 402 => .keyBlocked
  | 403 => .dailyLimitExceeded
  | 413 => .textTooLong
  | 501 => .langNotSupported
  | xxx => .unknownError xxx

/-- The `Word` struct of `src/lib.rs`. -/
structure Word where
  text : String
  pos : Option String
  ts : Option String
deriving DecidableEq

/-- The `Def` struct of `src/lib.rs`: a headword and its translations. -/
structure Def where
  word : Word
  trans : List Word
deriving DecidableEq

/-- The `Option::ok_or` + `try!` step used throughout `src/lib.rs`. -/
def okOr {α : Type} (x : Option α) (e : RequestError) : Except RequestError α :=
  match x with
  | some a => .ok a
  | none => .error e

/-- The free function `json_to_word` of `src/lib.rs`: `text` is required to
be present as a JSON string, else `InvalidDataFormat`; `pos` and `ts` are
kept only when present as JSON strings, else dropped to `none`. -/
def json_to_word (object : JObject) : Except RequestError Word :=
  match jsonGet object "text" with
  | some (.string s) =>
    let pos : Option String :=
      match jsonGet object "pos" with
      | some (.string p) => some p
      | _ => none
    let ts : Option String :=
      match jsonGet object "ts" with
      | some (.string t) => some t
      | _ => none
    .ok { text := s, pos := pos, ts := ts }
  | _ => .error .invalidDataFormat

/-- The `Api` struct: holds the credential token. -/
structure Api where
  token : String

/-- `Api::from_token`: always succeeds, storing an owned copy of the token. -/
def Api.from_token (token : String) : Except ApiError Api :=
  .ok { token := token }

/-- `Api::from_env`: reads one environment variable (the environment is the
explicit `env` argument, the model of `std::env::var`) and fails with
`InvalidEnvironmentVar` on lookup failure; no other effect is involved —
in particular the definition takes no `wire`, so no network request occurs. -/
def Api.from_env (env : String → Except VarError String) (var : String) :
    Except ApiError Api :=
  match env var with
  | .ok tok => Api.from_token tok
  | .error e => .error (.invalidEnvironmentVar e)

/-- Outcome of the external send / read-body / JSON-parse pipeline for one
request: `sendErr` is a failed `client.get(url).send()` (a `HyperError`),
`readErr` a failed `read_to_string` (an `IOError`), `badBody` a body that
`Json::from_str` rejects (a `ParserError`), and `resp` a body parsed to a
`Json` value, each with the response's HTTP status code. -/
inductive Transport where
  | sendErr
  | readErr
  | badBody (status : Nat)
  | resp (status : Nat) (json : Json)

/-- The `API_URL` constant of `src/lib.rs`. -/
def API_URL : String := "https://dictionary.yandex.net/api/v1/dicservice.json"

/-- `Api::fetch_json`: prepend the base URL, perform the request (the `wire`
argument), and on a non-OK HTTP status classify the service error code found
in the body; on status OK return the parsed JSON.  Note the parse happens
before the status check, so an unparseable body is a `ParseError` whatever
the status. -/
def Api.fetch_json (_self : Api) (wire : String → Transport) (url : String) :
    Except RequestError Json :=
  let url := API_URL ++ "/" ++ url
  match wire url with
  | .sendErr => .error .hyperError
  | .readErr => .error .ioError
  | .badBody _ => .error .parseError
  | .resp status json =>
    if status ≠ 200 then
      match okOr json.as_object .invalidDataFormat with
      | .error e => .error e
      | .ok object =>
        match okOr (jsonGet object "code") .invalidDataFormat with
        | .error e => .error e
        | .ok code_object =>
          match okOr code_object.as_u64 .invalidDataFormat with
          | .error e => .error e
          | .ok code => .error (RequestError.fromCode code)
    else
      .ok json

/-- The `for obj in array` loop of `Api::get_langs`: keep the string
elements, silently skip the rest. -/
def langsLoop : List Json → List String
  | [] => []
  | obj :: rest =>
    match obj.as_string with
    | some s => s :: langsLoop rest
    | none => langsLoop rest

/-- `Api::get_langs`: fetch `getLangs?key=<token>`, require an array body,
and collect its string elements. -/
def Api.get_langs (self : Api) (wire : String → Transport) :
    Except RequestError (List String) :=
  match self.fetch_json wire ("getLangs?key=" ++ self.token) with
  | .error e => .error e
  | .ok json =>
    match okOr json.as_array .invalidDataFormat with
    | .error e => .error e
    | .ok array => .ok (langsLoop array)

/-- `Api::lookup`: fetch `lookup?key=<token>&lang=<lang>&text=<text>` (the
arguments are interpolated verbatim by `format!`), require an object body,
and return it as a `Json` value. -/
def Api.lookup (self : Api) (wire : String → Transport) (lang text : String) :
    Except RequestError Json :=
  match self.fetch_json wire
      ("lookup?key=" ++ self.token ++ "&lang=" ++ lang ++ "&text=" ++ text) with
  | .error e => .error e
  | .ok json =>
    match okOr json.as_object .invalidDataFormat with
    | .error e => .error e
    | .ok object => .ok (Json.object object)

/-- The inner `for tr in trans_arr` loop of `Api::lookup_def`: each element
must be an object and pass `json_to_word`; the first failure aborts. -/
def transLoop : List Json → Except RequestError (List Word)
  | [] => .ok []
  | tr :: rest =>
    match okOr tr.as_object .invalidDataFormat with
    | .error e => .error e
    | .ok tr_obj =>
      match json_to_word tr_obj with
      | .error e => .error e
      | .ok tr_word =>
        match transLoop rest with
        | .error e => .error e
        | .ok ws => .ok (tr_word :: ws)

/-- The outer `for item in def_arr` loop of `Api::lookup_def`: each element
must be an object, yield a headword via `json_to_word`, and carry a `tr`
array projected by `transLoop`; the first failure aborts. -/
def defsLoop : List Json → Except RequestError (List Def)
  | [] => .ok []
  | item :: rest =>
    match okOr item.as_object .invalidDataFormat with
    | .error e => .error e
    | .ok obj =>
      match json_to_word obj with
      | .error e => .error e
      | .ok word =>
        match okOr (jsonGet obj "tr") .invalidDataFormat with
        | .error e => .error e
        | .ok trans_obj =>
          match okOr trans_obj.as_array .invalidDataFormat with
          | .error e => .error e
          | .ok trans_arr =>
            match transLoop trans_arr with
            | .error e => .error e
            | .ok ws =>
              match defsLoop rest with
              | .error e => .error e
              | .ok ds => .ok ({ word := word, trans := ws } :: ds)

/-- `Api::lookup_def`: run `Api::lookup`, then require a `def` field holding
an array and project it with `defsLoop`. -/
def Api.lookup_def (self : Api) (wire : String → Transport)
    (lang text : String) : Except RequestError (List Def) :=
  match self.lookup wire lang text with
  | .error e => .error e
  | .ok json =>
    match okOr json.as_object .invalidDataFormat with
    | .error e => .error e
    | .ok object =>
      match okOr (jsonGet object "def") .invalidDataFormat with
      | .error e => .error e
      | .ok def_obj =>
        match okOr def_obj.as_array .invalidDataFormat with
        | .error e => .error e
        | .ok def_arr => defsLoop def_arr

/-! ### Spec-side descriptions

The predicates below are written from the specification's wording (the walk
over `def` / `tr` / `text`, the word-extraction rule, URL-encoding); the
theorems compare the code above against them. -/

/-- The word object carries its required field: `text` present as a JSON
string (the spec's word-extraction rule, required part). -/
def wordRequiredOk (o : JObject) : Bool :=
  match jsonGet o "text" with
  | some (.string _) => true
  | _ => false

/-- A `tr` element is structurally acceptable: an object carrying `text` as
a string. -/
def trItemOk (j : Json) : Bool :=
  match j with
  | .object o => wordRequiredOk o
  | _ => false

/-- A `def` element is structurally acceptable: an object carrying `text` as
a string and `tr` as an array of acceptable elements. -/
def defItemOk (j : Json) : Bool :=
  match j with
  | .object o =>
    wordRequiredOk o &&
      (match jsonGet o "tr" with
       | some (.array trs) => trs.all trItemOk
       | _ => false)
  | _ => false

/-- The whole required walk of a lookup body succeeds: a top-level object
with a `def` array all of whose elements are acceptable.  Its negation is
the spec's "missing required field or wrong JSON type at a required
position, anywhere in the walk". -/
def lookupRequiredOk (j : Json) : Bool :=
  match j with
  | .object o =>
    match jsonGet o "def" with
    | some (.array arr) => arr.all defItemOk
    | _ => false
  | _ => false

/-- An optional string field is well-formed: absent, or present as a JSON
string (the spec's "`pos` and `ts` optional strings"). -/
def optStrOk (o : JObject) (k : String) : Bool :=
  match jsonGet o k with
  | some (.string _) => true
  | some _ => false
  | none => true

/-- A well-formed word object: `text` present as a string and `pos`, `ts`
strings whenever present. -/
def wordWf (o : JObject) : Bool :=
  wordRequiredOk o && optStrOk o "pos" && optStrOk o "ts"

/-- A well-formed `tr` element: an object whose word fields are well-formed. -/
def trWfItem (j : Json) : Bool :=
  match j with
  | .object o => wordWf o
  | _ => false

/-- A well-formed `def` element: a well-formed word object with a `tr` array
of well-formed elements. -/
def defWfItem (j : Json) : Bool :=
  match j with
  | .object o =>
    wordWf o &&
      (match jsonGet o "tr" with
       | some (.array trs) => trs.all trWfItem
       | _ => false)
  | _ => false

/-- A well-formed lookup body: a top-level object with a `def` array of
well-formed elements. -/
def lookupWf (j : Json) : Bool :=
  match j with
  | .object o =>
    match jsonGet o "def" with
    | some (.array arr) => arr.all defWfItem
    | _ => false
  | _ => false

/-- The spec's round-trip condition for one word: the produced `text` is
exactly the source JSON string, and `pos` / `ts` are present if and only if
the source object had those fields, with exactly the source string values. -/
def wordMatches (o : JObject) (w : Word) : Prop :=
  jsonGet o "text" = some (.string w.text) ∧
  jsonGet o "pos" = Option.map Json.string w.pos ∧
  jsonGet o "ts" = Option.map Json.string w.ts

/-- The spec's round-trip condition for one definition: the element is an
object whose headword matches and whose `tr` array matches the produced
translations pointwise (same order and count). -/
def defMatches (j : Json) (d : Def) : Prop :=
  ∃ o, j = .object o ∧ wordMatches o d.word ∧
    ∃ trs, jsonGet o "tr" = some (.array trs) ∧
      List.Forall₂ (fun tj w => ∃ t, tj = .object t ∧ wordMatches t w)
        trs d.trans

/-- Modelled from the spec: the repository contains no URL-encoding code, so
the spec's "query text URL-encoded" is rendered here as standard
percent-encoding over the ASCII range — unreserved characters
(alphanumerics and `-`, `.`, `_`, `~`) are kept, every other character is
replaced by a `%HH` escape of its code. -/
def hexDigit (n : Nat) : Char :=
  if n < 10 then Char.ofNat (48 + n) else Char.ofNat (55 + n)

/-- Percent-encoding of one character (see `hexDigit`). -/
def urlEncodeChar (c : Char) : List Char :=
  if c.isAlphanum || c = '-' || c = '.' || c = '_' || c = '~' then [c]
  else ['%', hexDigit (c.toNat / 16 % 16), hexDigit (c.toNat % 16)]

/-- Percent-encoding of a string (see `hexDigit`). -/
def urlEncode (s : String) : String :=
  ⟨List.flatten (s.data.map urlEncodeChar)⟩

/-- The projection tail of `Api::lookup_def` applied to an already fetched
body: require a top-level object with a `def` array and run `defsLoop`.
Used to state the composition lemma `lookup_def_eq`. -/
def lookupDefBody (json : Json) : Except RequestError (List Def) :=
  match json with
  | .object o =>
    (match okOr (jsonGet o "def") .invalidDataFormat with
     | .error e => .error e
     | .ok def_obj =>
       match okOr def_obj.as_array .invalidDataFormat with
       | .error e => .error e
       | .ok def_arr => defsLoop def_arr)
  | _ => .error .invalidDataFormat

/-! ### Concrete transports and bodies used to instantiate the theorems -/

/-- A wire answering every request with status 403 and body `{"code": 401}`. -/
def wireC1 : String → Transport :=
  fun _ => .resp 403 (.object [("code", .u64 401)])

/-- A wire answering with status 200 and a body `{}` lacking `def`. -/
def wireC2 : String → Transport :=
  fun _ => .resp 200 (.object [])

/-- The definition object of the spec's concrete lookup scenario. -/
def rustItem : Json :=
  .object [("text", .string "rust"), ("pos", .string "noun"),
    ("ts", .string "rʌst"),
    ("tr", .array [.object [("text", .string "ржавчина")]])]

/-- The body of the spec's concrete lookup scenario. -/
def rustBody : JObject := [("def", .array [rustItem])]

/-- A wire answering every request with status 200 and the rust body. -/
def wireC3 : String → Transport :=
  fun _ => .resp 200 (.object rustBody)

/-- A wire answering with a language array holding a non-string element. -/
def wireC4 : String → Transport :=
  fun _ => .resp 200 (.array [.string "en-ru", .u64 7, .string "en-fr"])

/-- A wire whose response body is not valid JSON, under status 403. -/
def wireC5bad : String → Transport := fun _ => .badBody 403

/-- A wire answering status 404 with a JSON array body (not an object). -/
def wireC5arr : String → Transport := fun _ => .resp 404 (.array [])

/-- A wire answering status 404 with an object whose `code` is a string. -/
def wireC5obj : String → Transport :=
  fun _ => .resp 404 (.object [("code", .string "x")])

/-- A wire serving only the URL built with the text spliced verbatim. -/
def wireC6verbatim : String → Transport := fun u =>
  if u = API_URL ++ "/" ++ ("lookup?key=" ++ "k" ++ "&lang=" ++ "en-ru" ++ "&text=" ++ "a b")
  then .resp 200 (.object []) else .sendErr

/-- A wire serving only the URL built with the text percent-encoded. -/
def wireC6encoded : String → Transport := fun u =>
  if u = API_URL ++ "/" ++ ("lookup?key=" ++ "k" ++ "&lang=" ++ "en-ru" ++ "&text=" ++ urlEncode "a b")
  then .resp 200 (.object []) else .sendErr

/-- A wire failing every send. -/
def wireC6a : String → Transport := fun _ => .sendErr

/-- A wire failing the send exactly at the verbatim lookup URL and the body
read everywhere else. -/
def wireC6b : String → Transport := fun u =>
  if u = API_URL ++ "/" ++ ("lookup?key=" ++ "k" ++ "&lang=" ++ "en-ru" ++ "&text=" ++ "rust")
  then .sendErr else .readErr

/-- A wire answering status 200 with a definition whose `text` is `""`. -/
def wireC7 : String → Transport := fun _ =>
  .resp 200 (.object [("def",
    .array [.object [("text", .string ""), ("tr", .array [])]])])

/-- A wire answering status 200 with one plain definition. -/
def wireC7ok : String → Transport := fun _ =>
  .resp 200 (.object [("def",
    .array [.object [("text", .string "rust"), ("tr", .array [])]])])

/-- A wire answering status 200 with an object body. -/
def wireC8obj : String → Transport :=
  fun _ => .resp 200 (.object [("a", .boolean true)])

/-- A wire answering status 200 with an array body (not an object). -/
def wireC8arr : String → Transport := fun _ => .resp 200 (.array [])

/-- An environment in which every variable is absent. -/
def envEmpty : String → Except VarError String := fun _ => .error .notPresent


/-! ### Word-level lemmas -/

theorem okOr_some {α : Type} (a : α) (e : RequestError) :
    okOr (some a) e = .ok a := rfl

theorem okOr_none {α : Type} (e : RequestError) :
    okOr (none : Option α) e = .error e := rfl

theorem okOr_eq_ok {α : Type} {x : Option α} {e : RequestError} {a : α}
    (h : okOr x e = .ok a) : x = some a := by
  cases x with
  | some b => injection h with h; rw [h]
  | none => cases h

theorem json_to_word_err (o : JObject) (h : wordRequiredOk o = false) :
    json_to_word o = .error .invalidDataFormat := by
  unfold json_to_word
  unfold wordRequiredOk at h
  split
  · next s heq => rw [heq] at h; simp at h
  · rfl

theorem json_to_word_total (o : JObject) (h : wordRequiredOk o = true) :
    ∃ w, json_to_word o = .ok w := by
  unfold wordRequiredOk at h
  unfold json_to_word
  split
  · exact ⟨_, rfl⟩
  · next hne =>
    exfalso
    cases hg : jsonGet o "text" with
    | none => rw [hg] at h; simp at h
    | some j =>
      cases j <;> rw [hg] at h <;> simp at h
      next s => exact hne s hg

theorem json_to_word_text (o : JObject) (w : Word)
    (h : json_to_word o = .ok w) :
    jsonGet o "text" = some (.string w.text) := by
  unfold json_to_word at h
  split at h
  · next s heq =>
    simp only [Except.ok.injEq] at h
    rw [← h]
    exact heq
  · exact absurd h (by simp)

theorem json_to_word_wf (o : JObject) (h : wordWf o = true) :
    ∃ w, json_to_word o = .ok w ∧ wordMatches o w := by
  unfold wordWf wordRequiredOk optStrOk at h
  simp only [Bool.and_eq_true] at h
  obtain ⟨⟨htext, hpos⟩, hts⟩ := h
  cases hg : jsonGet o "text" with
  | none => rw [hg] at htext; simp at htext
  | some j =>
    cases j <;> rw [hg] at htext <;> simp at htext
    next s =>
    have hpos' : jsonGet o "pos" = none ∨ ∃ p, jsonGet o "pos" = some (.string p) := by
      cases hp : jsonGet o "pos" with
      | none => exact Or.inl rfl
      | some jp => cases jp <;> rw [hp] at hpos <;> simp_all
    have hts' : jsonGet o "ts" = none ∨ ∃ t, jsonGet o "ts" = some (.string t) := by
      cases ht : jsonGet o "ts" with
      | none => exact Or.inl rfl
      | some jt => cases jt <;> rw [ht] at hts <;> simp_all
    rcases hpos' with hp | ⟨p, hp⟩ <;> rcases hts' with ht | ⟨t, ht⟩
    · exact ⟨⟨s, none, none⟩, by unfold json_to_word; rw [hg, hp, ht],
        hg, by simp [hp], by simp [ht]⟩
    · exact ⟨⟨s, none, some t⟩, by unfold json_to_word; rw [hg, hp, ht],
        hg, by simp [hp], by simp [ht]⟩
    · exact ⟨⟨s, some p, none⟩, by unfold json_to_word; rw [hg, hp, ht],
        hg, by simp [hp], by simp [ht]⟩
    · exact ⟨⟨s, some p, some t⟩, by unfold json_to_word; rw [hg, hp, ht],
        hg, by simp [hp], by simp [ht]⟩

theorem as_object_some {j : Json} {o : JObject} (h : j.as_object = some o) :
    j = .object o := by
  cases j <;> simp_all [Json.as_object]

theorem trItemOk_true (j : Json) (h : trItemOk j = true) :
    ∃ o, j = .object o ∧ wordRequiredOk o = true := by
  unfold trItemOk at h
  split at h
  · next o => exact ⟨o, rfl, h⟩
  · exact absurd h (by simp)

theorem trWfItem_true (j : Json) (h : trWfItem j = true) :
    ∃ o, j = .object o ∧ wordWf o = true := by
  unfold trWfItem at h
  split at h
  · next o => exact ⟨o, rfl, h⟩
  · exact absurd h (by simp)

theorem defItemOk_true (j : Json) (h : defItemOk j = true) :
    ∃ o trs, j = .object o ∧ wordRequiredOk o = true ∧
      jsonGet o "tr" = some (.array trs) ∧ trs.all trItemOk = true := by
  unfold defItemOk at h
  split at h
  · next o =>
    rw [Bool.and_eq_true] at h
    obtain ⟨hw, htr⟩ := h
    split at htr
    · next trs heq => exact ⟨o, trs, rfl, hw, heq, htr⟩
    · exact absurd htr (by simp)
  · exact absurd h (by simp)

theorem defWfItem_true (j : Json) (h : defWfItem j = true) :
    ∃ o trs, j = .object o ∧ wordWf o = true ∧
      jsonGet o "tr" = some (.array trs) ∧ trs.all trWfItem = true := by
  unfold defWfItem at h
  split at h
  · next o =>
    rw [Bool.and_eq_true] at h
    obtain ⟨hw, htr⟩ := h
    split at htr
    · next trs heq => exact ⟨o, trs, rfl, hw, heq, htr⟩
    · exact absurd htr (by simp)
  · exact absurd h (by simp)

/-! ### Lemmas about the translation loop -/

theorem transLoop_total (trs : List Json) (h : trs.all trItemOk = true) :
    ∃ ws, transLoop trs = .ok ws := by
  induction trs with
  | nil => exact ⟨[], rfl⟩
  | cons j rest ih =>
    rw [List.all_cons, Bool.and_eq_true] at h
    obtain ⟨o, rfl, hw⟩ := trItemOk_true j h.1
    obtain ⟨w, hjw⟩ := json_to_word_total o hw
    obtain ⟨ws, hws⟩ := ih h.2
    refine ⟨w :: ws, ?_⟩
    unfold transLoop
    simp [Json.as_object, okOr, hjw, hws]

theorem transLoop_err (trs : List Json) (h : trs.all trItemOk = false) :
    transLoop trs = .error .invalidDataFormat := by
  induction trs with
  | nil => simp at h
  | cons j rest ih =>
    cases hj : trItemOk j with
    | false =>
      unfold transLoop
      cases j with
      | object o =>
        simp only [trItemOk] at hj
        simp [Json.as_object, okOr, json_to_word_err o hj]
      | i64 n => rfl
      | u64 n => rfl
      | f64 => rfl
      | string s => rfl
      | boolean b => rfl
      | array xs => rfl
    | true =>
      rw [List.all_cons, hj, Bool.true_and] at h
      obtain ⟨o, rfl, hw⟩ := trItemOk_true j hj
      obtain ⟨w, hjw⟩ := json_to_word_total o hw
      unfold transLoop
      simp [Json.as_object, okOr, hjw, ih h]

theorem transLoop_wf (trs : List Json) (h : trs.all trWfItem = true) :
    ∃ ws, transLoop trs = .ok ws ∧
      List.Forall₂ (fun tj w => ∃ t, tj = .object t ∧ wordMatches t w)
        trs ws := by
  induction trs with
  | nil => exact ⟨[], rfl, List.Forall₂.nil⟩
  | cons j rest ih =>
    rw [List.all_cons, Bool.and_eq_true] at h
    obtain ⟨o, rfl, hwf⟩ := trWfItem_true j h.1
    obtain ⟨w, hjw, hm⟩ := json_to_word_wf o hwf
    obtain ⟨ws, hws, hf⟩ := ih h.2
    refine ⟨w :: ws, ?_, List.Forall₂.cons ⟨o, rfl, hm⟩ hf⟩
    unfold transLoop
    simp [Json.as_object, okOr, hjw, hws]

theorem transLoop_inv (trs : List Json) (ws : List Word)
    (h : transLoop trs = .ok ws) :
    List.Forall₂
      (fun tj w => ∃ t, tj = .object t ∧
        jsonGet t "text" = some (.string w.text)) trs ws := by
  induction trs generalizing ws with
  | nil =>
    unfold transLoop at h
    injection h with h
    rw [← h]
    exact List.Forall₂.nil
  | cons j rest ih =>
    unfold transLoop at h
    split at h
    · cases h
    · next tr_obj heq =>
      split at h
      · cases h
      · next tr_word heqw =>
        split at h
        · cases h
        · next ws' heqr =>
          injection h with h
          rw [← h]
          exact List.Forall₂.cons
            ⟨tr_obj, as_object_some (okOr_eq_ok heq),
              json_to_word_text tr_obj tr_word heqw⟩ (ih ws' heqr)

theorem as_array_some {j : Json} {xs : List Json} (h : j.as_array = some xs) :
    j = .array xs := by
  cases j <;> simp_all [Json.as_array]

theorem okOr_eq_error {α : Type} {x : Option α} {e0 e : RequestError}
    (h : okOr x e0 = .error e) : e = e0 := by
  cases x with
  | some b => cases h
  | none => injection h with h; rw [h]

theorem json_to_word_error (o : JObject) (e : RequestError)
    (h : json_to_word o = .error e) : e = .invalidDataFormat := by
  unfold json_to_word at h
  split at h
  · cases h
  · injection h with h; rw [h]

theorem wordRequiredOk_of_ok (o : JObject) (w : Word)
    (h : json_to_word o = .ok w) : wordRequiredOk o = true := by
  unfold wordRequiredOk
  rw [json_to_word_text o w h]

theorem transLoop_error (trs : List Json) (e : RequestError)
    (h : transLoop trs = .error e) : e = .invalidDataFormat := by
  induction trs generalizing e with
  | nil => cases h
  | cons j rest ih =>
    unfold transLoop at h
    split at h
    · next e' heq => injection h with h; rw [← h]; exact okOr_eq_error heq
    · next tr_obj heq =>
      split at h
      · next e' heqw => injection h with h; rw [← h]
                        exact json_to_word_error tr_obj e' heqw
      · next w heqw =>
        split at h
        · next e' heqr => injection h with h; rw [← h]; exact ih e' heqr
        · cases h

theorem transLoop_ok_all (trs : List Json) (ws : List Word)
    (h : transLoop trs = .ok ws) : trs.all trItemOk = true := by
  induction trs generalizing ws with
  | nil => simp
  | cons j rest ih =>
    unfold transLoop at h
    split at h
    · cases h
    · next tr_obj heq =>
      split at h
      · cases h
      · next w heqw =>
        split at h
        · cases h
        · next ws' heqr =>
          rw [List.all_cons, Bool.and_eq_true]
          refine ⟨?_, ih ws' heqr⟩
          rw [as_object_some (okOr_eq_ok heq)]
          simp only [trItemOk]
          exact wordRequiredOk_of_ok tr_obj w heqw

/-! ### Lemmas about the definitions loop -/

theorem defsLoop_total (arr : List Json) (h : arr.all defItemOk = true) :
    ∃ ds, defsLoop arr = .ok ds := by
  induction arr with
  | nil => exact ⟨[], rfl⟩
  | cons j rest ih =>
    rw [List.all_cons, Bool.and_eq_true] at h
    obtain ⟨o, trs, rfl, hw, htr, hall⟩ := defItemOk_true j h.1
    obtain ⟨w, hjw⟩ := json_to_word_total o hw
    obtain ⟨ws, hws⟩ := transLoop_total trs hall
    obtain ⟨ds, hds⟩ := ih h.2
    refine ⟨⟨w, ws⟩ :: ds, ?_⟩
    unfold defsLoop
    simp [Json.as_object, okOr, hjw, htr, Json.as_array, hws, hds]

theorem defsLoop_error (arr : List Json) (e : RequestError)
    (h : defsLoop arr = .error e) : e = .invalidDataFormat := by
  induction arr generalizing e with
  | nil => cases h
  | cons j rest ih =>
    unfold defsLoop at h
    split at h
    · next e' heq => injection h with h; rw [← h]; exact okOr_eq_error heq
    · next obj heq1 =>
      split at h
      · next e' heqw => injection h with h; rw [← h]
                        exact json_to_word_error obj e' heqw
      · next word heq2 =>
        split at h
        · next e' heq => injection h with h; rw [← h]; exact okOr_eq_error heq
        · next trans_obj heq3 =>
          split at h
          · next e' heq => injection h with h; rw [← h]
                           exact okOr_eq_error heq
          · next trans_arr heq4 =>
            split at h
            · next e' heqr => injection h with h; rw [← h]
                              exact transLoop_error trans_arr e' heqr
            · next ws heq5 =>
              split at h
              · next e' heqr => injection h with h; rw [← h]
                                exact ih e' heqr
              · cases h

theorem defsLoop_ok_all (arr : List Json) (ds : List Def)
    (h : defsLoop arr = .ok ds) : arr.all defItemOk = true := by
  induction arr generalizing ds with
  | nil => simp
  | cons j rest ih =>
    unfold defsLoop at h
    split at h
    · cases h
    · next obj heq1 =>
      split at h
      · cases h
      · next word heq2 =>
        split at h
        · cases h
        · next trans_obj heq3 =>
          split at h
          · cases h
          · next trans_arr heq4 =>
            split at h
            · cases h
            · next ws heq5 =>
              split at h
              · cases h
              · next ds' heq6 =>
                have htr : jsonGet obj "tr" = some (.array trans_arr) := by
                  have htrg := okOr_eq_ok heq3
                  rw [as_array_some (okOr_eq_ok heq4)] at htrg
                  exact htrg
                rw [List.all_cons, Bool.and_eq_true]
                refine ⟨?_, ih ds' heq6⟩
                rw [as_object_some (okOr_eq_ok heq1)]
                simp [defItemOk, htr, wordRequiredOk_of_ok obj word heq2,
                  transLoop_ok_all trans_arr ws heq5]

theorem defsLoop_err (arr : List Json) (h : arr.all defItemOk = false) :
    defsLoop arr = .error .invalidDataFormat := by
  cases hd : defsLoop arr with
  | ok ds => rw [defsLoop_ok_all arr ds hd] at h; cases h
  | error e => rw [defsLoop_error arr e hd]

theorem defsLoop_wf (arr : List Json) (h : arr.all defWfItem = true) :
    ∃ ds, defsLoop arr = .ok ds ∧ List.Forall₂ defMatches arr ds := by
  induction arr with
  | nil => exact ⟨[], rfl, List.Forall₂.nil⟩
  | cons j rest ih =>
    rw [List.all_cons, Bool.and_eq_true] at h
    obtain ⟨o, trs, rfl, hwf, htr, hall⟩ := defWfItem_true j h.1
    obtain ⟨w, hjw, hm⟩ := json_to_word_wf o hwf
    obtain ⟨ws, hws, hfw⟩ := transLoop_wf trs hall
    obtain ⟨ds, hds, hfd⟩ := ih h.2
    refine ⟨⟨w, ws⟩ :: ds, ?_,
      List.Forall₂.cons ⟨o, rfl, hm, trs, htr, hfw⟩ hfd⟩
    unfold defsLoop
    simp [Json.as_object, okOr, hjw, htr, Json.as_array, hws, hds]

theorem defsLoop_inv (arr : List Json) (ds : List Def)
    (h : defsLoop arr = .ok ds) :
    List.Forall₂ (fun j d => ∃ o, j = .object o ∧
      jsonGet o "text" = some (.string d.word.text) ∧
      ∃ trs, jsonGet o "tr" = some (.array trs) ∧
        List.Forall₂ (fun tj w => ∃ t, tj = .object t ∧
          jsonGet t "text" = some (.string w.text)) trs d.trans) arr ds := by
  induction arr generalizing ds with
  | nil =>
    unfold defsLoop at h
    injection h with h
    rw [← h]
    exact List.Forall₂.nil
  | cons j rest ih =>
    unfold defsLoop at h
    split at h
    · cases h
    · next obj heq1 =>
      split at h
      · cases h
      · next word heq2 =>
        split at h
        · cases h
        · next trans_obj heq3 =>
          split at h
          · cases h
          · next trans_arr heq4 =>
            split at h
            · cases h
            · next ws heq5 =>
              split at h
              · cases h
              · next ds' heq6 =>
                injection h with h
                rw [← h]
                have htr : jsonGet obj "tr" = some (.array trans_arr) := by
                  have htrg := okOr_eq_ok heq3
                  rw [as_array_some (okOr_eq_ok heq4)] at htrg
                  exact htrg
                exact List.Forall₂.cons
                  ⟨obj, as_object_some (okOr_eq_ok heq1),
                    json_to_word_text obj word heq2, trans_arr, htr,
                    transLoop_inv trans_arr ws heq5⟩ (ih ds' heq6)

/-! ### Composition lemmas for the client operations -/

theorem fetch_json_ok (a : Api) (wire : String → Transport) (url : String)
    (json : Json) (hw : wire (API_URL ++ "/" ++ url) = .resp 200 json) :
    a.fetch_json wire url = .ok json := by
  simp [Api.fetch_json, hw]

theorem langsLoop_eq_filterMap (arr : List Json) :
    langsLoop arr = arr.filterMap Json.as_string := by
  induction arr with
  | nil => rfl
  | cons j rest ih =>
    unfold langsLoop
    cases hj : j.as_string with
    | some s => simp [List.filterMap_cons, hj, ih]
    | none => simp [List.filterMap_cons, hj, ih]

theorem fromCode_table (n : Nat) :
    RequestError.fromCode n =
      if n = 401 then .keyInvalid
      else if n = 402 then .keyBlocked
      else if n = 403 then .dailyLimitExceeded
      else if n = 413 then .textTooLong
      else if n = 501 then .langNotSupported
      else .unknownError n := by
  unfold RequestError.fromCode
  split <;> simp_all

theorem lookup_def_eq (a : Api) (wire : String → Transport)
    (lang text : String) (json : Json)
    (hf : a.fetch_json wire
      ("lookup?key=" ++ a.token ++ "&lang=" ++ lang ++ "&text=" ++ text)
      = .ok json) :
    a.lookup_def wire lang text = lookupDefBody json := by
  unfold Api.lookup_def Api.lookup lookupDefBody
  simp only [hf]
  cases json <;> simp [Json.as_object, okOr]

/-! ### The claims -/

/-- C1: for every response whose HTTP status is not OK and whose body is a
JSON object with an integer-valued `code` field `n` (a `u64`, the parser's
representation of a nonnegative integer), the call fails with the error
variant given by the table: 401 ↦ `keyInvalid`, 402 ↦ `keyBlocked`,
403 ↦ `dailyLimitExceeded`, 413 ↦ `textTooLong`, 501 ↦ `langNotSupported`,
and any other `n` ↦ `unknownError n`. -/
theorem C1_service_code_classification (a : Api) (wire : String → Transport)
    (url : String) (status : Nat) (o : JObject) (n : Nat)
    (hw : wire (API_URL ++ "/" ++ url) = .resp status (.object o))
    (hs : status ≠ 200)
    (hc : jsonGet o "code" = some (.u64 n)) :
    a.fetch_json wire url = .error
      (if n = 401 then RequestError.keyInvalid
       else if n = 402 then RequestError.keyBlocked
       else if n = 403 then RequestError.dailyLimitExceeded
       else if n = 413 then RequestError.textTooLong
       else if n = 501 then RequestError.langNotSupported
       else RequestError.unknownError n) := by
  rw [← fromCode_table n]
  simp [Api.fetch_json, hw, hs, Json.as_object, okOr, hc, Json.as_u64]

/-- Witness for C1: status 403 with body `{"code": 401}` yields
`keyInvalid`. -/
theorem C1_witness :
    Api.fetch_json ⟨"k"⟩ wireC1 "getLangs?key=k" = .error .keyInvalid := by
  have h := C1_service_code_classification ⟨"k"⟩ wireC1 "getLangs?key=k"
    403 [("code", .u64 401)] 401 rfl (by decide) rfl
  simpa using h

/-- C4: for every `get_langs` response with HTTP status OK whose body is a
JSON array, the call returns exactly the string-typed elements of that
array, in order, silently dropping the non-string elements. -/
theorem C4_get_langs_filters_strings (a : Api) (wire : String → Transport)
    (xs : List Json)
    (hw : wire (API_URL ++ "/" ++ ("getLangs?key=" ++ a.token))
      = .resp 200 (.array xs)) :
    a.get_langs wire = .ok (xs.filterMap Json.as_string) := by
  unfold Api.get_langs
  rw [fetch_json_ok a wire _ _ hw]
  simp [Json.as_array, okOr, langsLoop_eq_filterMap]

/-- Witness for C4: the array `["en-ru", 7, "en-fr"]` yields exactly
`["en-ru", "en-fr"]`. -/
theorem C4_witness :
    Api.get_langs ⟨"k"⟩ wireC4 = .ok ["en-ru", "en-fr"] := by
  have h := C4_get_langs_filters_strings ⟨"k"⟩ wireC4
    [.string "en-ru", .u64 7, .string "en-fr"] rfl
  rw [h]
  rfl

/-- C8: for every `lookup` response with HTTP status OK, a top-level JSON
object is returned unchanged, and a non-object top-level value fails with
`invalidDataFormat`. -/
theorem C8_lookup_raw (a : Api) (wire : String → Transport)
    (lang text : String) (json : Json)
    (hw : wire (API_URL ++ "/" ++
        ("lookup?key=" ++ a.token ++ "&lang=" ++ lang ++ "&text=" ++ text))
      = .resp 200 json) :
    (∀ o, json = .object o → a.lookup wire lang text = .ok json) ∧
    (json.as_object = none →
      a.lookup wire lang text = .error .invalidDataFormat) := by
  have hf := fetch_json_ok a wire _ json hw
  constructor
  · intro o ho
    unfold Api.lookup
    rw [hf]
    subst ho
    simp [Json.as_object, okOr]
  · intro hno
    unfold Api.lookup
    rw [hf]
    simp [hno, okOr]

/-- Witness for C8: an object body is returned as is; an array body is an
`invalidDataFormat` failure. -/
theorem C8_witness :
    Api.lookup ⟨"k"⟩ wireC8obj "en-ru" "x" = .ok (.object [("a", .boolean true)]) ∧
    Api.lookup ⟨"k"⟩ wireC8arr "en-ru" "x" = .error .invalidDataFormat := by
  constructor
  · exact (C8_lookup_raw ⟨"k"⟩ wireC8obj "en-ru" "x"
      (.object [("a", .boolean true)]) rfl).1 [("a", .boolean true)] rfl
  · exact (C8_lookup_raw ⟨"k"⟩ wireC8arr "en-ru" "x" (.array []) rfl).2 rfl

/-- C9: whenever the environment lookup fails, `Api::from_env` returns the
`invalidEnvironmentVar` error carrying the underlying cause; the definition
of `Api.from_env` takes no wire at all, so no network request is involved. -/
theorem C9_from_env_error (env : String → Except VarError String)
    (var : String) (e : VarError) (h : env var = .error e) :
    Api.from_env env var = .error (.invalidEnvironmentVar e) := by
  unfold Api.from_env
  rw [h]

/-- Witness for C9: an empty environment yields the configuration error. -/
theorem C9_witness :
    Api.from_env envEmpty "YANDEX_DICTIONARY_TOKEN"
      = .error (.invalidEnvironmentVar .notPresent) :=
  C9_from_env_error envEmpty "YANDEX_DICTIONARY_TOKEN" .notPresent rfl

/-- C10: `Api::from_token` succeeds on every token, including `""`: it
returns `Ok` holding that token and never an error. -/
theorem C10_from_token_total (token : String) :
    Api.from_token token = .ok { token := token } ∧
    ∀ e, Api.from_token token ≠ .error e :=
  ⟨rfl, fun _ h => by cases h⟩

/-- C2: for every `lookup_def` response with HTTP status OK whose JSON body,
anywhere in the walk over the top-level object, its `def` array, each
definition object, its `tr` array, or any word object, misses a required
field (`def`, `tr`, `text`) or has the wrong JSON type at a required
position (`lookupRequiredOk` is exactly that walk), the call returns the
`invalidDataFormat` error — no partial list of definitions is returned. -/
theorem C2_malformed_lookup_aborts (a : Api) (wire : String → Transport)
    (lang text : String) (json : Json)
    (hw : wire (API_URL ++ "/" ++
        ("lookup?key=" ++ a.token ++ "&lang=" ++ lang ++ "&text=" ++ text))
      = .resp 200 json)
    (hbad : lookupRequiredOk json = false) :
    a.lookup_def wire lang text = .error .invalidDataFormat := by
  have hf := fetch_json_ok a wire _ json hw
  rw [lookup_def_eq a wire lang text json hf]
  cases json
  case object o =>
    cases hg : jsonGet o "def"
    case none => simp [lookupDefBody, hg, okOr]
    case some dj =>
      have hbad2 : (match jsonGet o "def" with
        | some (.array arr) => arr.all defItemOk
        | _ => false) = false := hbad
      rw [hg] at hbad2
      cases dj
      case array arr =>
        have hbad3 : arr.all defItemOk = false := hbad2
        simp [lookupDefBody, hg, okOr, Json.as_array, defsLoop_err arr hbad3]
      all_goals simp [lookupDefBody, hg, okOr, Json.as_array]
  all_goals rfl

/-- Witness for C2: a body `{}` lacking `def` aborts with
`invalidDataFormat`. -/
theorem C2_witness :
    Api.lookup_def ⟨"k"⟩ wireC2 "en-ru" "x" = .error .invalidDataFormat :=
  C2_malformed_lookup_aborts ⟨"k"⟩ wireC2 "en-ru" "x" (.object []) rfl rfl

/-- C3: round trip — for every OK response whose body is an object with a
well-formed `def`/`tr` structure (`defWfItem`: required fields present and
string-typed, optional `pos`/`ts` strings when present), `lookup_def`
succeeds and the produced definitions match the source arrays pointwise
(`defMatches`): headword and translation `text` equal the source strings,
in the same order and count, and `pos`/`ts` are present iff the source
object had those fields. -/
theorem C3_roundtrip (a : Api) (wire : String → Transport)
    (lang text : String) (o : JObject) (arr : List Json)
    (hw : wire (API_URL ++ "/" ++
        ("lookup?key=" ++ a.token ++ "&lang=" ++ lang ++ "&text=" ++ text))
      = .resp 200 (.object o))
    (hdef : jsonGet o "def" = some (.array arr))
    (hwf : arr.all defWfItem = true) :
    ∃ defs, a.lookup_def wire lang text = .ok defs ∧
      List.Forall₂ defMatches arr defs := by
  obtain ⟨ds, hds, hfa⟩ := defsLoop_wf arr hwf
  refine ⟨ds, ?_, hfa⟩
  rw [lookup_def_eq a wire lang text (.object o)
    (fetch_json_ok a wire _ _ hw)]
  simp [lookupDefBody, hdef, okOr, Json.as_array, hds]

/-- Witness for C3: the spec's concrete scenario, body
`{"def": [{"text": "rust", "pos": "noun", "ts": "rʌst",
"tr": [{"text": "ржавчина"}]}]}`. -/
theorem C3_witness :
    ∃ defs, Api.lookup_def ⟨"k"⟩ wireC3 "en-ru" "rust" = .ok defs ∧
      List.Forall₂ defMatches [rustItem] defs :=
  C3_roundtrip ⟨"k"⟩ wireC3 "en-ru" "rust" rustBody [rustItem] rfl rfl
    (by decide)

/-- C5 as stated is false: a non-OK response whose body is not valid JSON
fails with `parseError` (the parse happens before the status check and its
failure is propagated as the `ParseError` variant), not with
`invalidDataFormat`. -/
theorem C5_counterexample :
    Api.fetch_json ⟨"k"⟩ wireC5bad "getLangs?key=k" = .error .parseError ∧
    Api.fetch_json ⟨"k"⟩ wireC5bad "getLangs?key=k"
      ≠ .error .invalidDataFormat := by
  refine ⟨rfl, ?_⟩
  intro h
  rw [show Api.fetch_json ⟨"k"⟩ wireC5bad "getLangs?key=k"
    = Except.error RequestError.parseError from rfl] at h
  simp at h

/-- C5 amended: under a non-OK HTTP status, a body that parses but is not an
object, or is an object lacking a `u64`-valued `code` field, fails with
`invalidDataFormat`; a body that does not parse as JSON fails with the
`parseError` variant instead. -/
theorem C5_error_shape (a : Api) (wire : String → Transport) (url : String) :
    (∀ status, wire (API_URL ++ "/" ++ url) = .badBody status →
      a.fetch_json wire url = .error .parseError) ∧
    (∀ status json, wire (API_URL ++ "/" ++ url) = .resp status json →
      status ≠ 200 → json.as_object = none →
      a.fetch_json wire url = .error .invalidDataFormat) ∧
    (∀ status o, wire (API_URL ++ "/" ++ url) = .resp status (.object o) →
      status ≠ 200 →
      (∀ c, jsonGet o "code" = some c → c.as_u64 = none) →
      a.fetch_json wire url = .error .invalidDataFormat) := by
  refine ⟨?_, ?_, ?_⟩
  · intro status hw
    simp [Api.fetch_json, hw]
  · intro status json hw hs hno
    simp [Api.fetch_json, hw, hs, hno, okOr]
  · intro status o hw hs hcode
    cases hg : jsonGet o "code" with
    | none => simp [Api.fetch_json, hw, hs, Json.as_object, okOr, hg]
    | some c =>
      simp [Api.fetch_json, hw, hs, Json.as_object, okOr, hg, hcode c hg]

/-- Witness for C5: an unparseable 403 body is a `parseError`; a 404 array
body and a 404 object body with a string `code` are `invalidDataFormat`. -/
theorem C5_witness :
    Api.fetch_json ⟨"k"⟩ wireC5bad "u" = .error .parseError ∧
    Api.fetch_json ⟨"k"⟩ wireC5arr "u" = .error .invalidDataFormat ∧
    Api.fetch_json ⟨"k"⟩ wireC5obj "u" = .error .invalidDataFormat := by
  refine ⟨(C5_error_shape ⟨"k"⟩ wireC5bad "u").1 403 rfl,
    (C5_error_shape ⟨"k"⟩ wireC5arr "u").2.1 404 (.array []) rfl
      (by decide) rfl,
    (C5_error_shape ⟨"k"⟩ wireC5obj "u").2.2 404 [("code", .string "x")] rfl
      (by decide) ?_⟩
  intro c hc
  rw [show jsonGet [("code", Json.string "x")] "code"
    = some (Json.string "x") from rfl] at hc
  injection hc with hc
  rw [← hc]
  rfl

/-- C6 as stated is false: `format!` splices the query text into the URL
verbatim, with no URL-encoding.  For the text `"a b"`, a wire serving only
the URL with the text verbatim answers the call, while a wire serving only
the URL with the text percent-encoded (`"a%20b"`) is never consulted there
and the call surfaces its send failure. -/
theorem C6_counterexample :
    urlEncode "a b" = "a%20b" ∧
    Api.lookup ⟨"k"⟩ wireC6verbatim "en-ru" "a b" = .ok (.object []) ∧
    Api.lookup ⟨"k"⟩ wireC6encoded "en-ru" "a b" = .error .hyperError := by
  refine ⟨by decide, rfl, rfl⟩

/-- C6 amended: the request URL sent by `lookup` is exactly the lookup
endpoint with the token as `key`, the language pair as `lang`, and the query
text spliced verbatim (not URL-encoded) as `text` — the call's outcome
depends on the wire only at that URL. -/
theorem C6_request_url (a : Api) (wire wire' : String → Transport)
    (lang text : String)
    (h : wire (API_URL ++ "/" ++
        ("lookup?key=" ++ a.token ++ "&lang=" ++ lang ++ "&text=" ++ text))
      = wire' (API_URL ++ "/" ++
        ("lookup?key=" ++ a.token ++ "&lang=" ++ lang ++ "&text=" ++ text))) :
    a.lookup wire lang text = a.lookup wire' lang text := by
  simp only [Api.lookup, Api.fetch_json]
  rw [h]

/-- Witness for C6: two wires agreeing at the verbatim lookup URL produce
the same call outcome. -/
theorem C6_witness :
    Api.lookup ⟨"k"⟩ wireC6a "en-ru" "rust"
      = Api.lookup ⟨"k"⟩ wireC6b "en-ru" "rust" :=
  C6_request_url ⟨"k"⟩ wireC6a wireC6b "en-ru" "rust" rfl

/-- C7 as stated is false: `json_to_word` only requires `text` to be present
as a JSON string and accepts the empty string, so a successful `lookup_def`
can return a definition whose headword `text` is `""` instead of rejecting
it as a data-format error. -/
theorem C7_counterexample :
    ¬ (∀ defs, Api.lookup_def ⟨"k"⟩ wireC7 "en-ru" "x" = .ok defs →
        ∀ d ∈ defs, d.word.text ≠ "") := by
  intro hclaim
  exact hclaim [⟨⟨"", none, none⟩, []⟩] rfl ⟨⟨"", none, none⟩, []⟩
    (by simp) rfl

/-- C7 amended: every definition produced by a successful `lookup_def` has a
headword whose `text` was present in the source JSON as a string — absence
or a non-string value is rejected as a data-format error — though that
string may be empty; and its translations come from a `tr` field present in
the source object as an array (of matching length), possibly empty. -/
theorem C7_headword_invariant (a : Api) (wire : String → Transport)
    (lang text : String) (json : Json) (defs : List Def)
    (hw : wire (API_URL ++ "/" ++
        ("lookup?key=" ++ a.token ++ "&lang=" ++ lang ++ "&text=" ++ text))
      = .resp 200 json)
    (hok : a.lookup_def wire lang text = .ok defs) :
    ∃ o arr, json = .object o ∧ jsonGet o "def" = some (.array arr) ∧
      List.Forall₂ (fun j d => ∃ io, j = .object io ∧
        jsonGet io "text" = some (.string d.word.text) ∧
        ∃ trs, jsonGet io "tr" = some (.array trs) ∧
          trs.length = d.trans.length) arr defs := by
  have hf := fetch_json_ok a wire _ json hw
  rw [lookup_def_eq a wire lang text json hf] at hok
  cases json
  case object o =>
    cases hg : jsonGet o "def"
    case none => simp [lookupDefBody, hg, okOr] at hok
    case some dj =>
      cases dj
      case array arr =>
        have hok' : defsLoop arr = .ok defs := by
          have h2 : lookupDefBody (.object o)
              = (match okOr (jsonGet o "def") .invalidDataFormat with
                 | .error e => .error e
                 | .ok def_obj =>
                   match okOr def_obj.as_array .invalidDataFormat with
                   | .error e => .error e
                   | .ok def_arr => defsLoop def_arr) := rfl
          rw [h2, hg] at hok
          exact hok
        refine ⟨o, arr, rfl, hg, (defsLoop_inv arr defs hok').imp ?_⟩
        intro j d hd
        obtain ⟨io, hio, htext, trs, htr, hfa⟩ := hd
        exact ⟨io, hio, htext, trs, htr, hfa.length_eq⟩
      all_goals simp [lookupDefBody, hg, okOr, Json.as_array] at hok
  all_goals simp [lookupDefBody] at hok

/-- Witness for C7: a successful call over a one-definition body exposes the
source `text` string and the `tr` array. -/
theorem C7_witness :
    ∃ (o : JObject) (arr : List Json),
      (Json.object [("def", Json.array
        [.object [("text", .string "rust"), ("tr", .array [])]])])
        = .object o ∧
      jsonGet o "def" = some (.array arr) ∧
      List.Forall₂ (fun (j : Json) (d : Def) => ∃ io, j = .object io ∧
        jsonGet io "text" = some (.string d.word.text) ∧
        ∃ trs, jsonGet io "tr" = some (.array trs) ∧
          trs.length = d.trans.length) arr
        [⟨⟨"rust", none, none⟩, []⟩] :=
  C7_headword_invariant ⟨"k"⟩ wireC7ok "en-ru" "rust"
    (.object [("def", .array
      [.object [("text", .string "rust"), ("tr", .array [])]])])
    [⟨⟨"rust", none, none⟩, []⟩] rfl rfl

end Yadict
